import Mathlib

/-!
Shallow embedding of the layered CRUD example in
`millsks/python-project-context`:

* `src/examples/repository/user_repository.py` — `UserRepository`, a
  SQLAlchemy-backed store.  We model the backing store as a `RepoState`
  (an ordered list of rows plus the storage-assigned fresh-id counter);
  each repository method becomes a function over `RepoState`.
* `src/examples/service/user_service.py` — `UserService`, business rules.
  Python exceptions become an `Exc` sum; a state-changing operation
  returns `Except Exc α × RepoState`, where the exception branch returns
  the unchanged input state (the `raise` happens before any repository
  write on every error path of the source).
* `src/examples/api/user_endpoints.py` — FastAPI endpoints.  In the
  source the service is an abstract interface, so each endpoint body is a
  pure function of the outcome of the single service call it makes;
  we embed it as such.  Response detail strings are elided; status codes
  are kept.
-/

/-- `User` model (`user_repository.py` lines 11–16 / `user_service.py`
lines 8–13): fields `id`, `email`, `name`. -/
structure User where
  id : Int
  email : String
  name : String
deriving DecidableEq

/-- The backing store behind a `UserRepository` session: the ordered list
of persisted `User` rows (the stable order `SELECT` enumerates) and the
next storage-assigned primary key. -/
structure RepoState where
  users : List User
  next_id : Int
deriving DecidableEq

/-- Python exceptions that can cross the service boundary:
`UserNotFoundError`, `UserAlreadyExistsError` (`user_service.py` lines
27–36), and any other `Exception` subclass (e.g. a storage failure),
carried with its message. -/
inductive Exc where
  | userNotFoundError
  | userAlreadyExistsError
  | otherExc (msg : String)
deriving DecidableEq

namespace UserRepository

/-- `UserRepository.get_by_id`: `SELECT … WHERE User.id == user_id`,
first matching row or `None`. -/
def get_by_id (st : RepoState) (user_id : Int) : Option User :=
  st.users.find? (fun u => u.id == user_id)

/-- `UserRepository.get_by_email`: `SELECT … WHERE User.email == email`,
first matching row or `None`. -/
def get_by_email (st : RepoState) (email : String) : Option User :=
  st.users.find? (fun u => u.email == email)

/-- `UserRepository.list_all`: `SELECT … LIMIT limit OFFSET offset` over
the store's stable order.  SQLite treats a negative `OFFSET` as `0` and a
negative `LIMIT` as "no limit". -/
def list_all (st : RepoState) (limit : Int) (offset : Int) : List User :=
  let skipped := st.users.drop offset.toNat
  if limit < 0 then skipped else skipped.take limit.toNat

/-- `UserRepository.create`: `INSERT` a row with a fresh storage-assigned
id, returning the stored record and the new store. -/
def create (st : RepoState) (email : String) (name : String) :
    User × RepoState :=
  let user : User := { id := st.next_id, email := email, name := name }
  (user, { users := st.users ++ [user], next_id := st.next_id + 1 })

/-- `UserRepository.update`: persist the given record's field values
keyed by its primary key (`session.add` of a persistent object +
`flush`). -/
def update (st : RepoState) (user : User) : User × RepoState :=
  (user,
   { users := st.users.map (fun v => if v.id = user.id then user else v),
     next_id := st.next_id })

/-- `UserRepository.delete`: `DELETE` the row with the given record's
primary key. -/
def delete (st : RepoState) (user : User) : RepoState :=
  { users := st.users.filter (fun v => v.id != user.id),
    next_id := st.next_id }

end UserRepository

namespace UserService

/-- `UserService.get_user` (`user_service.py` lines 50–65): fetch by id,
raise `UserNotFoundError` when absent.  Read-only. -/
def get_user (st : RepoState) (user_id : Int) : Except Exc User :=
  match UserRepository.get_by_id st user_id with
  | none => Except.error Exc.userNotFoundError
  | some user => Except.ok user

/-- `UserService.list_users` (`user_service.py` lines 67–78):
`offset = (page - 1) * page_size`, delegate to `list_all`.  Read-only,
raises nothing. -/
def list_users (st : RepoState) (page : Int) (page_size : Int) :
    List User :=
  let offset := (page - 1) * page_size
  UserRepository.list_all st page_size offset

/-- `UserService.create_user` (`user_service.py` lines 80–97): look up by
email, raise `UserAlreadyExistsError` if present (before any write),
otherwise delegate to `UserRepository.create`. -/
def create_user (st : RepoState) (email : String) (name : String) :
    Except Exc User × RepoState :=
  match UserRepository.get_by_email st email with
  | some _ => (Except.error Exc.userAlreadyExistsError, st)
  | none =>
    let r := UserRepository.create st email name
    (Except.ok r.1, r.2)

/-- `UserService.update_user_name` (`user_service.py` lines 99–114):
fetch via `get_user` (propagating `UserNotFoundError` before any write),
set the `name` field, persist via `UserRepository.update`. -/
def update_user_name (st : RepoState) (user_id : Int) (new_name : String) :
    Except Exc User × RepoState :=
  match get_user st user_id with
  | Except.error e => (Except.error e, st)
  | Except.ok user =>
    let r := UserRepository.update st { user with name := new_name }
    (Except.ok r.1, r.2)

/-- `UserService.delete_user` (`user_service.py` lines 116–126): fetch
via `get_user` (propagating `UserNotFoundError` before any write), delete
via `UserRepository.delete`. -/
def delete_user (st : RepoState) (user_id : Int) :
    Except Exc Unit × RepoState :=
  match get_user st user_id with
  | Except.error e => (Except.error e, st)
  | Except.ok user => (Except.ok (), UserRepository.delete st user)

end UserService

/-- Response model `UserResponse` (`user_endpoints.py` lines 24–34). -/
structure UserResponse where
  id : Int
  email : String
  name : String
deriving DecidableEq

/-- `UserResponse.model_validate(user)`: build the response from the
model's attributes. -/
def model_validate (u : User) : UserResponse :=
  { id := u.id, email := u.email, name := u.name }

/-- `UserListResponse` (`user_endpoints.py` lines 37–43). -/
structure UserListResponse where
  users : List UserResponse
  page : Int
  page_size : Int
  total : Int
deriving DecidableEq

/-- `fastapi.HTTPException` as raised by the endpoints (detail string
elided). -/
structure HTTPException where
  status_code : Nat
deriving DecidableEq

namespace user_endpoints

/-- Endpoint `GET /users/\x7buser_id\x7d` (`user_endpoints.py` lines
68–92) as a function of the outcome of `service.get_user(user_id)`:
`try` the call and validation, `except Exception` raise
`HTTPException(404)`. -/
def get_user (result : Except Exc User) :
    Except HTTPException UserResponse :=
  match result with
  | Except.ok user => Except.ok (model_validate user)
  | Except.error _ => Except.error { status_code := 404 }

/-- Endpoint `GET /users/` (`user_endpoints.py` lines 95–117) as a
function of the requested `page`, `page_size` and the sequence returned
by `service.list_users`: no `try`, and `total = len(users)`. -/
def list_users (page : Int) (page_size : Int) (users : List User) :
    UserListResponse :=
  { users := users.map model_validate,
    page := page,
    page_size := page_size,
    total := users.length }

/-- Endpoint `POST /users/` (`user_endpoints.py` lines 120–144) as a
function of the outcome of `service.create_user(...)`: `try` the call
and validation, `except Exception` raise `HTTPException(409)`. -/
def create_user (result : Except Exc User) :
    Except HTTPException UserResponse :=
  match result with
  | Except.ok user => Except.ok (model_validate user)
  | Except.error _ => Except.error { status_code := 409 }

end user_endpoints

/-- Storage-level well-formedness of the backing store: `id` is the
primary key (pairwise distinct) and the fresh-id counter is above every
stored id — both maintained by the storage engine, not the service. -/
def Wf (st : RepoState) : Prop :=
  st.users.Pairwise (fun u v => u.id ≠ v.id) ∧
    ∀ u ∈ st.users, u.id < st.next_id

/-- The business invariant of §3 of the design: at most one `User` per
email value. -/
def EmailUnique (st : RepoState) : Prop :=
  st.users.Pairwise (fun u v => u.email ≠ v.email)

/-- A concrete populated store used by the witnesses. -/
def demoState : RepoState :=
  { users :=
      [{ id := 1, email := "a@x.com", name := "A" },
       { id := 2, email := "b@x.com", name := "B" },
       { id := 3, email := "c@x.com", name := "C" }],
    next_id := 4 }

example : UserService.get_user demoState 2 =
    Except.ok { id := 2, email := "b@x.com", name := "B" } := rfl

example : (UserService.create_user demoState "a@x.com" "D").1 =
    Except.error Exc.userAlreadyExistsError := rfl

example : UserService.list_users demoState 2 2 =
    [{ id := 3, email := "c@x.com", name := "C" }] := rfl

/-! ### Helper lemmas -/

lemma get_by_email_isSome_iff (st : RepoState) (email : String) :
    (UserRepository.get_by_email st email).isSome ↔
      ∃ u ∈ st.users, u.email = email := by
  unfold UserRepository.get_by_email
  rw [List.find?_isSome]
  simp

lemma get_by_email_eq_none_iff (st : RepoState) (email : String) :
    UserRepository.get_by_email st email = none ↔
      ∀ u ∈ st.users, u.email ≠ email := by
  unfold UserRepository.get_by_email
  rw [List.find?_eq_none]
  simp

lemma find?_decomp {p : User → Bool} :
    ∀ {l : List User} {u : User}, l.find? p = some u →
      ∃ l₁ l₂, l = l₁ ++ u :: l₂ ∧ ∀ v ∈ l₁, p v = false := by
  intro l
  induction l with
  | nil => intro u h; simp [List.find?] at h
  | cons w l ih =>
    intro u h
    cases hw : p w with
    | true =>
      rw [List.find?_cons_of_pos _ hw] at h
      cases h
      exact ⟨[], l, rfl, by simp⟩
    | false =>
      rw [List.find?_cons_of_neg _ (by simp [hw])] at h
      obtain ⟨l₁, l₂, hl, h₁⟩ := ih h
      subst hl
      refine ⟨w :: l₁, l₂, rfl, ?_⟩
      intro v hv
      rcases List.mem_cons.1 hv with h | h
      · subst h; exact hw
      · exact h₁ v h

lemma pairwise_replace_middle {R : User → User → Prop} {l₁ l₂ : List User}
    {u u' : User} (h : (l₁ ++ u :: l₂).Pairwise R)
    (h₁ : ∀ v, R v u → R v u') (h₂ : ∀ v, R u v → R u' v) :
    (l₁ ++ u' :: l₂).Pairwise R := by
  rw [List.pairwise_append, List.pairwise_cons] at h ⊢
  obtain ⟨hl₁, ⟨hu, hl₂⟩, hcross⟩ := h
  refine ⟨hl₁, ⟨fun b hb => h₂ b (hu b hb), hl₂⟩, ?_⟩
  intro a ha b hb
  rcases List.mem_cons.1 hb with rfl | hb
  · exact h₁ a (hcross a ha u (List.mem_cons_self u l₂))
  · exact hcross a ha b (List.mem_cons_of_mem _ hb)

lemma find?_map_replace (l₁ l₂ : List User) (uid : Int) (u u' : User)
    (hl₁ : ∀ v ∈ l₁, (v.id == uid) = false)
    (hu : u.id = uid) (hu' : u'.id = u.id) :
    ((l₁ ++ u :: l₂).map
        (fun v => if v.id = u'.id then u' else v)).find?
        (fun v => v.id == uid) = some u' := by
  rw [List.map_append, List.map_cons, List.find?_append]
  have hnone :
      (l₁.map (fun v => if v.id = u'.id then u' else v)).find?
        (fun v => v.id == uid) = none := by
    rw [List.find?_eq_none]
    intro x hx
    obtain ⟨v, hv, rfl⟩ := List.mem_map.1 hx
    have hvid : (v.id == uid) = false := hl₁ v hv
    have : v.id ≠ u'.id := by
      rw [hu', hu]
      simpa using hvid
    simp [if_neg this, hvid]
  rw [hnone]
  have hhead : (if u.id = u'.id then u' else u) = u' := by
    rw [if_pos hu'.symm]
  rw [hhead]
  simp [List.find?_cons_of_pos, hu', hu]

lemma map_replace_eq (l₁ l₂ : List User) (u u' : User) (hu' : u'.id = u.id)
    (h₁ : ∀ v ∈ l₁, v.id ≠ u.id) (h₂ : ∀ v ∈ l₂, v.id ≠ u.id) :
    (l₁ ++ u :: l₂).map (fun v => if v.id = u'.id then u' else v) =
      l₁ ++ u' :: l₂ := by
  rw [List.map_append, List.map_cons]
  congr 1
  · exact (List.map_congr_left fun a ha => by
      rw [if_neg (by rw [hu']; exact h₁ a ha)]; rfl).trans (List.map_id l₁)
  · congr 1
    · rw [if_pos hu'.symm]
    · exact (List.map_congr_left fun a ha => by
        rw [if_neg (by rw [hu']; exact h₂ a ha)]; rfl).trans (List.map_id l₂)

lemma demoState_wf : Wf demoState := by
  constructor <;> decide

lemma demoState_emailUnique : EmailUnique demoState := by
  rw [EmailUnique]
  decide

/-! ### Claim theorems -/

/-- C3: `UserService.get_user` fails with `UserNotFoundError` exactly
when `UserRepository.get_by_id` finds no record for that id, and when a
record exists it returns exactly that record. -/
theorem get_user_correct (st : RepoState) (user_id : Int) :
    (UserRepository.get_by_id st user_id = none →
      UserService.get_user st user_id = Except.error Exc.userNotFoundError)
    ∧ ∀ u, UserRepository.get_by_id st user_id = some u →
      UserService.get_user st user_id = Except.ok u := by
  constructor
  · intro h
    simp [UserService.get_user, h]
  · intro u h
    simp [UserService.get_user, h]

/-- Witness for `get_user_correct` on the concrete store `demoState`. -/
theorem get_user_correct_witness :
    UserService.get_user demoState 2 =
      Except.ok { id := 2, email := "b@x.com", name := "B" } :=
  (get_user_correct demoState 2).2 _ rfl

/-- C4: `UserService.list_users` computes `offset = (page - 1) *
page_size` and returns exactly `UserRepository.list_all` at
`limit = page_size` and that offset, with no other transformation. -/
theorem list_users_delegates (st : RepoState) (page page_size : Int) :
    UserService.list_users st page page_size =
      UserRepository.list_all st page_size ((page - 1) * page_size) := rfl

/-- C10: for `page ≤ 0` and `page_size > 0`, `UserService.list_users`
raises nothing (it is a total function into `List User`) and passes the
negative offset `(page - 1) * page_size` through to
`UserRepository.list_all` unvalidated and unclamped. -/
theorem list_users_negative_offset (st : RepoState) (page page_size : Int)
    (hp : page ≤ 0) (hs : 0 < page_size) :
    UserService.list_users st page page_size =
      UserRepository.list_all st page_size ((page - 1) * page_size)
    ∧ (page - 1) * page_size < 0 := by
  refine ⟨rfl, mul_neg_of_neg_of_pos ?_ hs⟩
  omega

/-- Witness for `list_users_negative_offset` at `page = 0`,
`page_size = 20`. -/
theorem list_users_negative_offset_witness :
    UserService.list_users demoState 0 20 =
      UserRepository.list_all demoState 20 ((0 - 1) * 20)
    ∧ ((0 : Int) - 1) * 20 < 0 :=
  list_users_negative_offset demoState 0 20 (by omega) (by omega)

/-- C1: `UserService.create_user` fails with `UserAlreadyExistsError`
exactly when some stored `User` already has that email, in which case the
store is unchanged (no persistence write); otherwise it delegates to
`UserRepository.create` and returns the created record and store. -/
theorem create_user_correct (st : RepoState) (email name : String) :
    ((∃ u ∈ st.users, u.email = email) →
      UserService.create_user st email name =
        (Except.error Exc.userAlreadyExistsError, st))
    ∧ ((¬ ∃ u ∈ st.users, u.email = email) →
      UserService.create_user st email name =
        (Except.ok (UserRepository.create st email name).1,
         (UserRepository.create st email name).2)) := by
  constructor
  · intro h
    have hs : (UserRepository.get_by_email st email).isSome :=
      (get_by_email_isSome_iff st email).2 h
    obtain ⟨u, hu⟩ := Option.isSome_iff_exists.1 hs
    simp [UserService.create_user, hu]
  · intro h
    have hnone : UserRepository.get_by_email st email = none := by
      rw [get_by_email_eq_none_iff]
      intro u hu he
      exact h ⟨u, hu, he⟩
    simp [UserService.create_user, hnone]

/-- Witness for `create_user_correct` on the already-present email
`"a@x.com"` of `demoState`. -/
theorem create_user_correct_witness :
    UserService.create_user demoState "a@x.com" "D" =
      (Except.error Exc.userAlreadyExistsError, demoState) :=
  (create_user_correct demoState "a@x.com" "D").1
    ⟨{ id := 1, email := "a@x.com", name := "A" }, by simp [demoState], rfl⟩

/-- C5 counterexample: a service failure that is neither `NotFound` nor
`AlreadyExists` (e.g. storage unavailable) does not propagate out of the
endpoints — the bare `except Exception` maps it to 404 (get) and 409
(create). -/
theorem api_other_failure_mapped :
    user_endpoints.get_user
        (Except.error (Exc.otherExc "storage unavailable")) =
      Except.error { status_code := 404 }
    ∧ user_endpoints.create_user
        (Except.error (Exc.otherExc "storage unavailable")) =
      Except.error { status_code := 409 } :=
  ⟨rfl, rfl⟩

/-- C5 (amended): on success the endpoints return the validated record;
on ANY service exception — `NotFound`, `AlreadyExists`, or any other —
the get endpoint responds 404 and the create endpoint responds 409;
nothing propagates unhandled. -/
theorem api_error_mapping (u : User) (e : Exc) :
    user_endpoints.get_user (Except.ok u) = Except.ok (model_validate u)
    ∧ user_endpoints.get_user (Except.error e) =
        Except.error { status_code := 404 }
    ∧ user_endpoints.create_user (Except.ok u) =
        Except.ok (model_validate u)
    ∧ user_endpoints.create_user (Except.error e) =
        Except.error { status_code := 409 } :=
  ⟨rfl, rfl, rfl, rfl⟩

/-- C6: the list endpoint echoes `page` and `page_size` unchanged, and
its `total` field is the length of the sequence returned for this page —
on the 3-user `demoState` with `page_size = 2`, `total` is 2, not the
cross-page record count 3. -/
theorem list_response_fields (page page_size : Int) (users : List User) :
    (user_endpoints.list_users page page_size users).page = page
    ∧ (user_endpoints.list_users page page_size users).page_size = page_size
    ∧ (user_endpoints.list_users page page_size users).total = users.length
    ∧ (user_endpoints.list_users 1 2
        (UserService.list_users demoState 1 2)).total = 2
    ∧ demoState.users.length = 3 :=
  ⟨rfl, rfl, rfl, rfl, rfl⟩

/-- C7: when a record with this id exists, `update_user_name` returns a
record with the new name, the old email and the unchanged id, and a
subsequent `get_user` on the updated store returns that same record;
when no record exists, it fails with `UserNotFoundError` and leaves the
store unchanged. -/
theorem update_user_name_correct (st : RepoState) (user_id : Int)
    (new_name : String) :
    (∀ u, UserRepository.get_by_id st user_id = some u →
      ∃ r, (UserService.update_user_name st user_id new_name).1 =
            Except.ok r
        ∧ UserService.get_user
            (UserService.update_user_name st user_id new_name).2 user_id =
            Except.ok r
        ∧ r.name = new_name ∧ r.email = u.email ∧ r.id = u.id)
    ∧ (UserRepository.get_by_id st user_id = none →
      UserService.update_user_name st user_id new_name =
        (Except.error Exc.userNotFoundError, st)) := by
  constructor
  · intro u hu
    refine ⟨{ u with name := new_name }, ?_, ?_, rfl, rfl, rfl⟩
    · simp [UserService.update_user_name, UserService.get_user, hu,
        UserRepository.update]
    · have huid : u.id = user_id := by
        simpa using List.find?_some hu
      obtain ⟨l₁, l₂, hl, hl₁⟩ := find?_decomp hu
      have hstate :
          (UserService.update_user_name st user_id new_name).2.users =
            st.users.map (fun v =>
              if v.id = ({ u with name := new_name } : User).id
              then { u with name := new_name } else v) := by
        simp [UserService.update_user_name, UserService.get_user, hu,
          UserRepository.update]
      unfold UserService.get_user UserRepository.get_by_id
      rw [hstate, hl,
        find?_map_replace l₁ l₂ user_id u { u with name := new_name }
          hl₁ huid rfl]
  · intro h
    simp [UserService.update_user_name, UserService.get_user, h]

/-- Witness for `update_user_name_correct` on `demoState` at id 2. -/
theorem update_user_name_correct_witness :
    ∃ r, (UserService.update_user_name demoState 2 "Zed").1 = Except.ok r
      ∧ UserService.get_user
          (UserService.update_user_name demoState 2 "Zed").2 2 =
          Except.ok r
      ∧ r.name = "Zed" ∧ r.email = "b@x.com" ∧ r.id = 2 :=
  (update_user_name_correct demoState 2 "Zed").1
    { id := 2, email := "b@x.com", name := "B" } rfl

/-- C8: when a record with this id exists, `delete_user` succeeds and a
subsequent `get_user` on the resulting store fails with
`UserNotFoundError`; when no record exists, `delete_user` itself fails
with `UserNotFoundError` and leaves the store unchanged. -/
theorem delete_user_correct (st : RepoState) (user_id : Int) :
    (∀ u, UserRepository.get_by_id st user_id = some u →
      (UserService.delete_user st user_id).1 = Except.ok ()
      ∧ UserService.get_user
          (UserService.delete_user st user_id).2 user_id =
          Except.error Exc.userNotFoundError)
    ∧ (UserRepository.get_by_id st user_id = none →
      UserService.delete_user st user_id =
        (Except.error Exc.userNotFoundError, st)) := by
  constructor
  · intro u hu
    have huid : u.id = user_id := by
      simpa using List.find?_some hu
    constructor
    · simp [UserService.delete_user, UserService.get_user, hu]
    · have hstate : (UserService.delete_user st user_id).2.users =
          st.users.filter (fun v => v.id != u.id) := by
        simp [UserService.delete_user, UserService.get_user, hu,
          UserRepository.delete]
      unfold UserService.get_user UserRepository.get_by_id
      rw [hstate]
      have hnone : (st.users.filter (fun v => v.id != u.id)).find?
          (fun v => v.id == user_id) = none := by
        rw [List.find?_eq_none]
        intro x hx
        rw [List.mem_filter] at hx
        have hxid : x.id ≠ u.id := by simpa using hx.2
        rw [huid] at hxid
        simp [hxid]
      rw [hnone]
  · intro h
    simp [UserService.delete_user, UserService.get_user, h]

/-- Witness for `delete_user_correct` on `demoState` at id 1. -/
theorem delete_user_correct_witness :
    (UserService.delete_user demoState 1).1 = Except.ok ()
    ∧ UserService.get_user (UserService.delete_user demoState 1).2 1 =
        Except.error Exc.userNotFoundError :=
  (delete_user_correct demoState 1).1
    { id := 1, email := "a@x.com", name := "A" } rfl

/-- C2: from a store whose ids are primary keys (`Wf`, maintained by the
storage engine) and whose emails are unique (`EmailUnique`), every
state-changing service operation — `create_user`, `update_user_name`,
`delete_user` — preserves both `EmailUnique` and `Wf` (and `get_user` /
`list_users` are read-only in the embedding, so sequential execution of
any mix of the five operations preserves the invariant); moreover
`create_user` writes nothing when `get_by_email` finds an existing
record. -/
theorem service_preserves_email_uniqueness (st : RepoState)
    (hw : Wf st) (he : EmailUnique st)
    (email name new_name : String) (user_id : Int) :
    (EmailUnique (UserService.create_user st email name).2
      ∧ Wf (UserService.create_user st email name).2)
    ∧ (EmailUnique (UserService.update_user_name st user_id new_name).2
      ∧ Wf (UserService.update_user_name st user_id new_name).2)
    ∧ (EmailUnique (UserService.delete_user st user_id).2
      ∧ Wf (UserService.delete_user st user_id).2)
    ∧ ((UserRepository.get_by_email st email).isSome →
      (UserService.create_user st email name).2 = st) := by
  refine ⟨?_, ?_, ?_, ?_⟩
  · -- create_user
    cases hge : UserRepository.get_by_email st email with
    | some u =>
      have hstate : (UserService.create_user st email name).2 = st := by
        simp [UserService.create_user, hge]
      rw [hstate]
      exact ⟨he, hw⟩
    | none =>
      have hno : ∀ v ∈ st.users, (v.email == email) = false := by
        have := List.find?_eq_none.1 hge
        intro v hv
        simpa using this v hv
      have hstate : (UserService.create_user st email name).2 =
          { users := st.users ++
              [{ id := st.next_id, email := email, name := name }],
            next_id := st.next_id + 1 } := by
        simp only [UserService.create_user, hge]
        rfl
      rw [hstate]
      refine ⟨?_, ?_, ?_⟩
      · exact List.pairwise_append.2
          ⟨he, List.pairwise_singleton _ _, fun a ha b hb => by
            rw [List.mem_singleton.1 hb]
            simpa using hno a ha⟩
      · exact List.pairwise_append.2
          ⟨hw.1, List.pairwise_singleton _ _, fun a ha b hb => by
            rw [List.mem_singleton.1 hb]
            exact Int.ne_of_lt (hw.2 a ha)⟩
      · intro v hv
        rcases List.mem_append.1 hv with hv | hv
        · exact lt_trans (hw.2 v hv) (lt_add_one _)
        · rw [List.mem_singleton.1 hv]
          exact lt_add_one _
  · -- update_user_name
    cases hgu : UserRepository.get_by_id st user_id with
    | none =>
      have hstate :
          (UserService.update_user_name st user_id new_name).2 = st := by
        simp [UserService.update_user_name, UserService.get_user, hgu]
      rw [hstate]
      exact ⟨he, hw⟩
    | some u =>
      have hget : UserService.get_user st user_id = Except.ok u := by
        simp [UserService.get_user, hgu]
      have huid : u.id = user_id := by
        simpa using List.find?_some hgu
      obtain ⟨l₁, l₂, hl, hl₁'⟩ := find?_decomp hgu
      have hl₁ : ∀ v ∈ l₁, v.id ≠ u.id := fun v hv => by
        rw [huid]
        simpa using hl₁' v hv
      have hl₂ : ∀ v ∈ l₂, v.id ≠ u.id := by
        have hpw := hw.1
        rw [hl] at hpw
        have hc := (List.pairwise_cons.1 (List.pairwise_append.1 hpw).2.1).1
        exact fun v hv => (hc v hv).symm
      have hstate :
          (UserService.update_user_name st user_id new_name).2 =
            { users := st.users.map (fun v =>
                if v.id = u.id then { u with name := new_name } else v),
              next_id := st.next_id } := by
        simp only [UserService.update_user_name, hget]
        rfl
      have hmap : st.users.map (fun v =>
          if v.id = u.id then ({ u with name := new_name } : User)
          else v) = l₁ ++ { u with name := new_name } :: l₂ := by
        rw [hl]
        exact map_replace_eq l₁ l₂ u { u with name := new_name } rfl hl₁ hl₂
      have hu_mem : u ∈ st.users := by
        rw [hl]
        exact List.mem_append_right _ (List.mem_cons_self _ _)
      rw [hstate]
      have he' := he
      rw [EmailUnique, hl] at he'
      have hid' := hw.1
      rw [hl] at hid'
      refine ⟨?_, ?_, ?_⟩
      · show (st.users.map (fun v =>
            if v.id = u.id then { u with name := new_name } else v)).Pairwise
            (fun a b => a.email ≠ b.email)
        rw [hmap]
        exact pairwise_replace_middle he' (fun v h => h) (fun v h => h)
      · show (st.users.map (fun v =>
            if v.id = u.id then { u with name := new_name } else v)).Pairwise
            (fun a b => a.id ≠ b.id)
        rw [hmap]
        exact pairwise_replace_middle hid' (fun v h => h) (fun v h => h)
      · show ∀ v ∈ st.users.map (fun v =>
            if v.id = u.id then { u with name := new_name } else v),
            v.id < st.next_id
        rw [hmap]
        intro v hv
        rcases List.mem_append.1 hv with hv | hv
        · exact hw.2 v (by rw [hl]; exact List.mem_append_left _ hv)
        · rcases List.mem_cons.1 hv with rfl | hv
          · exact hw.2 u hu_mem
          · exact hw.2 v (by
              rw [hl]
              exact List.mem_append_right _ (List.mem_cons_of_mem _ hv))
  · -- delete_user
    cases hgu : UserRepository.get_by_id st user_id with
    | none =>
      have hstate : (UserService.delete_user st user_id).2 = st := by
        simp [UserService.delete_user, UserService.get_user, hgu]
      rw [hstate]
      exact ⟨he, hw⟩
    | some u =>
      have hget : UserService.get_user st user_id = Except.ok u := by
        simp [UserService.get_user, hgu]
      have hstate : (UserService.delete_user st user_id).2 =
          { users := st.users.filter (fun v => v.id != u.id),
            next_id := st.next_id } := by
        simp only [UserService.delete_user, hget]
        rfl
      rw [hstate]
      refine ⟨?_, ?_, ?_⟩
      · exact he.sublist (List.filter_sublist _)
      · exact hw.1.sublist (List.filter_sublist _)
      · intro v hv
        exact hw.2 v (List.mem_of_mem_filter hv)
  · -- create_user writes nothing when the email is taken
    intro hs
    obtain ⟨u, hu⟩ := Option.isSome_iff_exists.1 hs
    simp [UserService.create_user, hu]

/-- Witness for `service_preserves_email_uniqueness` on `demoState`. -/
theorem service_preserves_email_uniqueness_witness :
    (EmailUnique (UserService.create_user demoState "d@x.com" "D").2
      ∧ Wf (UserService.create_user demoState "d@x.com" "D").2)
    ∧ (EmailUnique (UserService.update_user_name demoState 2 "Zed").2
      ∧ Wf (UserService.update_user_name demoState 2 "Zed").2)
    ∧ (EmailUnique (UserService.delete_user demoState 2).2
      ∧ Wf (UserService.delete_user demoState 2).2)
    ∧ ((UserRepository.get_by_email demoState "d@x.com").isSome →
      (UserService.create_user demoState "d@x.com" "D").2 = demoState) :=
  service_preserves_email_uniqueness demoState demoState_wf
    demoState_emailUnique "d@x.com" "D" "Zed" 2

/-- C9: with the store's stable order and ids as primary keys, page 1 of
size 20 has at most 20 items, pages 1 and 2 together form the first 40
items of the stored order (page 2 is the window immediately after
page 1), and the two pages are disjoint. -/
theorem list_users_pages_disjoint (st : RepoState) (hw : Wf st) :
    (UserService.list_users st 1 20).length ≤ 20
    ∧ UserService.list_users st 1 20 ++ UserService.list_users st 2 20 =
        st.users.take 40
    ∧ List.Disjoint (UserService.list_users st 1 20)
        (UserService.list_users st 2 20) := by
  have h1 : UserService.list_users st 1 20 = st.users.take 20 := by
    simp [UserService.list_users, UserRepository.list_all]
  have h2 : UserService.list_users st 2 20 =
      (st.users.drop 20).take 20 := by
    simp [UserService.list_users, UserRepository.list_all]
  have hnodup : st.users.Nodup :=
    hw.1.imp fun hab heq => hab (congrArg User.id heq)
  refine ⟨?_, ?_, ?_⟩
  · rw [h1]
    exact List.length_take_le 20 st.users
  · rw [h1, h2]
    exact (List.take_add st.users 20 20).symm
  · rw [h1, h2]
    intro a ha hb
    exact List.disjoint_take_drop hnodup (le_refl 20) ha
      (List.mem_of_mem_take hb)

/-- Witness for `list_users_pages_disjoint` on `demoState`. -/
theorem list_users_pages_disjoint_witness :
    (UserService.list_users demoState 1 20).length ≤ 20
    ∧ UserService.list_users demoState 1 20 ++
        UserService.list_users demoState 2 20 = demoState.users.take 40
    ∧ List.Disjoint (UserService.list_users demoState 1 20)
        (UserService.list_users demoState 2 20) :=
  list_users_pages_disjoint demoState demoState_wf
